import Mathlib

/-!
Shallow embedding of the alignment-interpretation core of
`libs/contigs_analyzer.py` (QUAST), together with theorems settling the
frozen claims about it.  The source is Python 2: `/` on two ints is floor
division there, which the embedding reproduces with `Nat`/`Int` division;
float arithmetic on small decimal constants is modelled with `ℚ`.
Coordinates are 1-based inclusive, exactly as in the coords records.
-/

namespace Quast

/-- Python 2 `int(round(a / b))` (`b > 0`) computed exactly on integers:
round half away from zero.  The source applies `round` to small float
expressions (the best-set penalties); those are modelled by their exact
rational values `a / b`. -/
def round_div (a b : Int) : Int :=
  if 0 ≤ a then (2 * a + b).fdiv (2 * b) else -((2 * -a + b).fdiv (2 * b))

/-- Python slice `l[a:b]` for nonnegative bounds (all slice indices taken in
the source are nonnegative there): elements `a, …, b-1`, clamped to the
list. -/
def pySlice (l : List Char) (a b : Int) : List Char :=
  (l.take b.toNat).drop a.toNat

/-- An alignment record (`Mapping` in the source): reference interval
`[s1, e1]`, contig interval endpoints `s2, e2` (strand is `s2 < e2`),
the two length fields of the coords record, percent identity and names. -/
structure Mapping where
  s1 : Int
  e1 : Int
  s2 : Int
  e2 : Int
  len1 : Int
  len2 : Int
  idy : ℚ
  ref : String
  contig : String
deriving Repr, DecidableEq

/-- `Mapping.start`: start on contig (always ≤ end), as in the source. -/
def Mapping.start (m : Mapping) : Int := min m.s2 m.e2

/-- `Mapping.end`: end on contig (always ≥ start), as in the source
(`end` is reserved in Lean, hence the trailing underscore). -/
def Mapping.end_ (m : Mapping) : Int := max m.s2 m.e2

/-- The configuration switches of `qconfig` consulted by the classifier,
plus `smgap = qconfig.extensive_misassembly_threshold`. -/
structure Config where
  scaffolds : Bool
  scaffolds_gap_threshold : Int
  Ns_break_threshold : Nat
  MAX_INDEL_LENGTH : Int
  smgap : Int
  is_combined_ref : Bool
  check_for_fragmented_ref : Bool
  ambiguity_usage : String
  strict_NA : Bool
deriving Repr, DecidableEq

/-- A BED breakpoint row of the SV table: only `s1`, `e1`, `ref` are
populated by `find_all_sv`. -/
structure SvMapping where
  s1 : Int
  e1 : Int
  ref : String
deriving Repr, DecidableEq

/-- `StructuralVariations`: three lists of breakpoint pairs. -/
structure StructuralVariations where
  inversions : List (SvMapping × SvMapping)
  relocations : List (SvMapping × SvMapping)
  translocations : List (SvMapping × SvMapping)
deriving Repr, DecidableEq

/-- The closed set of misassembly kinds (`class Misassembly` in the source). -/
inductive Misassembly where
  | LOCAL
  | RELOCATION
  | TRANSLOCATION
  | INVERSION
  | INTERSPECTRANSLOCATION
  | SCAFFOLD_GAP
  | FRAGMENTED
  | POTENTIALLY_MIS_CONTIGS
  | POTENTIALLY_MISASSEMBLIES
deriving Repr, DecidableEq

/-- Read-only ambient data used by the classifier: the configuration,
reference sequence lengths (`len(references[r])`), region lengths
(`reg_lens`, used for the cyclic adjustment), the chromosome→reference
labels (`ref_labels_by_chromosomes`) and the optional SV table. -/
structure Env where
  cfg : Config
  refLens : String → Int
  regLens : String → Int
  refLabels : String → String
  sv : Option StructuralVariations

/-- `distance_between_alignments`: signed reference-distance between two
alignments, with the optional cyclic adjustment; also returns
`cyclic_moment`. -/
def distance_between_alignments (cfg : Config) (align1 align2 : Mapping)
    (pos_strand1 pos_strand2 : Bool) (cyclic_ref_len : Option Int) : Int × Bool :=
  let distance : Int :=
    if pos_strand1 || pos_strand2 then align2.s1 - align1.e1 - 1
    else align1.s1 - align2.e1 - 1
  match cyclic_ref_len with
  | none => (distance, false)
  | some L =>
      let cyclic_distance : Int :=
        if align1.e1 < align2.e1 ∧ (L - align2.e1 + align1.s1 - 1) < cfg.smgap then
          distance + L * (if pos_strand1 then -1 else 1)
        else if align1.e1 ≥ align2.e1 ∧ (L - align1.e1 + align2.s1 - 1) < cfg.smgap then
          distance + L * (if pos_strand1 then 1 else -1)
        else distance
      if |cyclic_distance| < |distance| then (cyclic_distance, true)
      else (distance, false)

/-- The gap on the contig between two alignments, as sliced by the source:
`contig_seq[max(align1.e2, align1.s2) : min(align2.e2, align2.s2) - 1]`. -/
def gap_in_contig (contig_seq : List Char) (align1 align2 : Mapping) : List Char :=
  pySlice contig_seq (max align1.e2 align1.s2) (min align2.e2 align2.s2 - 1)

/-- `count_not_ns_between_aligns`: non-`N` bases in the contig gap. -/
def count_not_ns_between_aligns (contig_seq : List Char) (align1 align2 : Mapping) : Nat :=
  (gap_in_contig contig_seq align1 align2).length
    - (gap_in_contig contig_seq align1 align2).count 'N'

/-- `is_gap_filled_ns`.  The source compares
`gap_in_contig.count('N')/len(gap_in_contig) > 0.95` under Python 2, where
`/` on two ints is floor division; the integer quotient `q` satisfies
`q > 0.95` exactly when `100 * q > 95` (i.e. `q ≥ 1`), so the test
succeeds only when every base of the gap is `N`. -/
def is_gap_filled_ns (cfg : Config) (contig_seq : List Char) (align1 align2 : Mapping) : Bool :=
  let gap := gap_in_contig contig_seq align1 align2
  if gap.length < cfg.Ns_break_threshold then false
  else decide (100 * ((gap.count 'N') / gap.length : Nat) > 95)

/-- `check_is_scaffold_gap`. -/
def check_is_scaffold_gap (cfg : Config) (inconsistency : Int) (contig_seq : List Char)
    (align1 align2 : Mapping) : Bool :=
  if |inconsistency| ≤ cfg.scaffolds_gap_threshold ∧ align1.ref = align2.ref ∧
      is_gap_filled_ns cfg contig_seq align1 align2 = true ∧
      ((align1.s2 < align1.e2) ↔ (align2.s2 < align2.e2)) then
    true
  else false

/-- `__match_ci`: does `pos` fall in the confidence interval of breakpoint
`sv`, widened by `max_error` on both sides. -/
def match_ci (max_error pos : Int) (sv : SvMapping) : Bool :=
  decide (sv.s1 - max_error ≤ pos ∧ pos ≤ sv.e1 + max_error)

/-- The inner `while` of the relocation case of `check_sv`: walk forward
through the remaining relocation SVs merging chained deletions while each
next SV starts within `max_gap` of the previous end on the same reference. -/
def sv_chain_walk (max_error max_gap : Int) (refName : String) (a2s1 : Int) :
    Int → List (SvMapping × SvMapping) → Bool
  | _, [] => false
  | prev_end, sv :: rest =>
      if sv.1.s1 - prev_end ≤ max_gap ∧ sv.1.ref = refName then
        if match_ci max_error a2s1 sv.2 then true
        else sv_chain_walk max_error max_gap refName a2s1 sv.2.e1 rest
      else false

/-- The outer `for` of the relocation case of `check_sv`. -/
def sv_reloc_loop (max_error max_gap : Int) (a1 a2 : Mapping) :
    List (SvMapping × SvMapping) → Bool
  | [] => false
  | sv :: rest =>
      (if sv.1.ref = a1.ref ∧ match_ci max_error a1.e1 sv.1 then
        if match_ci max_error a2.s1 sv.2 then true
        else sv_chain_walk max_error max_gap a1.ref a2.s1 sv.2.e1 rest
      else false)
      || sv_reloc_loop max_error max_gap a1 a2 rest

/-- `check_sv`: is the discordance of a pair explained by a known
structural variation.  The inversion case keeps the Python operator
precedence of the source: the `ref` test binds only to the first
disjunct. -/
def check_sv (cfg : Config) (align1 align2 : Mapping) (inconsistency : Int)
    (rsv : StructuralVariations) : Bool :=
  let max_error : Int := 100
  let max_gap : Int := Int.fdiv cfg.smgap 4
  let (a1, a2) := if align2.s1 < align1.s1 then (align2, align1) else (align1, align2)
  if a1.ref ≠ a2.ref then
    rsv.translocations.any (fun sv =>
      (decide (sv.1.ref = a1.ref) && decide (sv.2.ref = a2.ref) &&
        match_ci max_error a1.e1 sv.1 && match_ci max_error a2.s1 sv.2) ||
      (decide (sv.1.ref = a2.ref) && decide (sv.2.ref = a1.ref) &&
        match_ci max_error a2.e1 sv.1 && match_ci max_error a1.s1 sv.2))
  else if (decide (a1.s2 < a1.e2) ≠ decide (a2.s2 < a2.e2)) ∧ |inconsistency| < cfg.smgap then
    rsv.inversions.any (fun sv =>
      (decide (a1.ref = sv.1.ref) && match_ci max_error a1.s1 sv.1 &&
        match_ci max_error a2.s1 sv.2) ||
      (match_ci max_error a1.e1 sv.1 && match_ci max_error a2.e1 sv.2))
  else
    sv_reloc_loop max_error max_gap a1 a2 rsv.relocations

/-- The `aux_data` dictionary returned by `is_misassembly`. -/
structure AuxData where
  inconsistency : Int
  distance_on_contig : Int
  misassembly_internal_overlap : Int
  cyclic_moment : Bool
  is_sv : Bool
  is_translocation : Bool
  is_scaffold_gap : Bool
deriving Repr, DecidableEq

/-- The contig-side gap between two alignments
(`min(align2.e2, align2.s2) - max(align1.e2, align1.s2) - 1`). -/
def distance_on_contig (align1 align2 : Mapping) : Int :=
  min align2.e2 align2.s2 - max align1.e2 align1.s2 - 1

/-- The reference-distance/`cyclic_moment` computation at the top of
`is_misassembly`: `distance_between_alignments` receives the cyclic
reference length only when `cyclic_ref_lens` is given and the pair shares
a reference. -/
def ref_distance_cm (env : Env) (align1 align2 : Mapping)
    (cyclic_ref_lens : Option (String → Int)) : Int × Bool :=
  match cyclic_ref_lens with
  | some lens =>
      if align1.ref = align2.ref then
        distance_between_alignments env.cfg align1 align2
          (align1.s2 < align1.e2) (align2.s2 < align2.e2) (some (lens align1.ref))
      else
        distance_between_alignments env.cfg align1 align2
          (align1.s2 < align1.e2) (align2.s2 < align2.e2) none
  | none =>
      distance_between_alignments env.cfg align1 align2
        (align1.s2 < align1.e2) (align2.s2 < align2.e2) none

/-- The `misassembly_internal_overlap` contribution of one pair. -/
def internal_overlap_of (d_c d_r : Int) : Int :=
  if d_c < 0 then
    if d_r ≥ 0 then -d_c
    else if -d_r < -d_c then d_r - d_c
    else 0
  else 0

/-- The cross-reference adjustment block of `is_misassembly` (combined
reference / fragmented reference): returns the possibly-replaced
`(inconsistency, strand1, is_translocation)`. -/
def translocation_adjust (env : Env) (align1 align2 : Mapping)
    (inconsistency : Int) (strand1 strand2 : Bool) : Int × Bool × Bool :=
  if align1.ref ≠ align2.ref then
    if env.cfg.is_combined_ref = true ∧
        ¬ (env.refLabels align1.ref = env.refLabels align2.ref) then
      (inconsistency, strand1, true)
    else if env.cfg.check_for_fragmented_ref = true then
      let d1 := min |align1.e1 - env.refLens align1.ref| |align1.s1 - 1|
      let d2 := min |align2.e1 - env.refLens align2.ref| |align2.s1 - 1|
      if d1 ≤ env.cfg.MAX_INDEL_LENGTH ∧ d2 ≤ env.cfg.MAX_INDEL_LENGTH then
        (d1 + d2, strand2, false)
      else (inconsistency, strand1, true)
    else (inconsistency, strand1, true)
  else (inconsistency, strand1, false)

/-- The `if region_struct_variations: check_sv(...)` step (an absent SV
table is falsy in the source). -/
def sv_verdict (env : Env) (align1 align2 : Mapping) (inconsistency : Int) : Bool :=
  match env.sv with
  | some rsv => check_sv env.cfg align1 align2 inconsistency rsv
  | none => false

/-- Does `is_misassembly` take its scaffold-gap early return
(`qconfig.scaffolds and contig_seq and check_is_scaffold_gap(...)`)? -/
def scaffold_gap_path (env : Env) (align1 align2 : Mapping)
    (cyclic_ref_lens : Option (String → Int)) (contig_seq : List Char) : Prop :=
  env.cfg.scaffolds = true ∧ contig_seq ≠ [] ∧
    check_is_scaffold_gap env.cfg
      ((ref_distance_cm env align1 align2 cyclic_ref_lens).1 -
        distance_on_contig align1 align2)
      contig_seq align1 align2 = true

instance (env : Env) (align1 align2 : Mapping) (cyc : Option (String → Int))
    (contig_seq : List Char) :
    Decidable (scaffold_gap_path env align1 align2 cyc contig_seq) := by
  unfold scaffold_gap_path; infer_instance

/-- `is_misassembly`: decides whether an adjacent pair is an extensive
misassembly and computes the auxiliary data.  `cyclic_ref_lens` is
`reg_lens` when the reference is cyclic, else `none`; `contig_seq` is the
contig sequence (its Python truthiness — non-emptiness — gates the
scaffold-gap check, which the source invokes on the same sequence). -/
def is_misassembly (env : Env) (align1 align2 : Mapping)
    (cyclic_ref_lens : Option (String → Int)) (contig_seq : List Char) : Bool × AuxData :=
  let d_c := distance_on_contig align1 align2
  let d_r := (ref_distance_cm env align1 align2 cyclic_ref_lens).1
  let cyclic_moment := (ref_distance_cm env align1 align2 cyclic_ref_lens).2
  let mio := internal_overlap_of d_c d_r
  let strand1 := decide (align1.s2 < align1.e2)
  let strand2 := decide (align2.s2 < align2.e2)
  let inconsistency := d_r - d_c
  if scaffold_gap_path env align1 align2 cyclic_ref_lens contig_seq then
    (false, ⟨inconsistency, d_c, mio, cyclic_moment, false, false, true⟩)
  else
    let inc2 := (translocation_adjust env align1 align2 inconsistency strand1 strand2).1
    let st1 := (translocation_adjust env align1 align2 inconsistency strand1 strand2).2.1
    let is_translocation :=
      (translocation_adjust env align1 align2 inconsistency strand1 strand2).2.2
    let is_sv := sv_verdict env align1 align2 inc2
    let aux : AuxData :=
      ⟨inc2, d_c, mio, cyclic_moment, is_sv, is_translocation, false⟩
    if is_sv then (false, aux)
    else if align1.ref ≠ align2.ref ∧ ¬ is_translocation then (false, aux)
    else if align1.ref ≠ align2.ref ∨ |inc2| > env.cfg.smgap ∨ st1 ≠ strand2 then
      (true, aux)
    else (false, aux)

/-- `__shift_start`: move the contig start of an alignment to `new_start`,
shifting the matching reference endpoint by the same signed distance and
recomputing both length fields (the source recomputes `len1` from the
already-updated reference endpoint). -/
def shift_start (align : Mapping) (new_start : Int) : Mapping :=
  if align.s2 < align.e2 then
    { align with
      s1 := align.s1 + (new_start - align.s2)
      s2 := new_start
      len2 := align.e2 - new_start + 1
      len1 := align.e1 - (align.s1 + (new_start - align.s2)) + 1 }
  else
    { align with
      e1 := align.e1 - (new_start - align.e2)
      e2 := new_start
      len2 := align.s2 - new_start + 1
      len1 := (align.e1 - (new_start - align.e2)) - align.s1 + 1 }

/-- `__shift_end`: move the contig end of an alignment to `new_end`,
analogously. -/
def shift_end (align : Mapping) (new_end : Int) : Mapping :=
  if align.s2 < align.e2 then
    { align with
      e1 := align.e1 - (align.e2 - new_end)
      e2 := new_end
      len2 := new_end - align.s2 + 1
      len1 := (align.e1 - (align.e2 - new_end)) - align.s1 + 1 }
  else
    { align with
      s1 := align.s1 + (align.s2 - new_end)
      s2 := new_end
      len2 := new_end - align.e2 + 1
      len1 := align.e1 - (align.s1 + (align.s2 - new_end)) + 1 }

/-- `exclude_internal_overlaps`: remove the contig-side overlap between two
alignments adjacent on the contig according to the ambiguity policy.
Returns the (possibly shifted) pair and the size of `align1.len2`'s
decrease, exactly the source's return value. -/
def exclude_internal_overlaps (cfg : Config) (align1 align2 : Mapping) :
    Mapping × Mapping × Int :=
  if cfg.ambiguity_usage = "all" then (align1, align2, 0)
  else
    let d_c := min align2.e2 align2.s2 - max align1.e2 align1.s2 - 1
    if d_c ≥ 0 then (align1, align2, 0)
    else
      let prev_len2 := align1.len2
      if cfg.ambiguity_usage = "one" then
        if align1.len2 ≥ align2.len2 then
          let a2 := shift_start align2 (max align1.e2 align1.s2 + 1)
          (align1, a2, prev_len2 - align1.len2)
        else
          let a1 := shift_end align1 (min align2.e2 align2.s2 - 1)
          (a1, align2, prev_len2 - a1.len2)
      else
        let new_end := min align2.e2 align2.s2 - 1
        let a2 := shift_start align2 (max align1.e2 align1.s2 + 1)
        let a1 := shift_end align1 new_end
        (a1, a2, prev_len2 - a1.len2)

/-- The classification a pair receives in the branch ladder of
`process_misassembled_contig`. -/
inductive PairVerdict where
  | fakeSV
  | scaffoldGap
  | extensive (kind : Misassembly)
  | fakeCyclic
  | fakeFragmented
  | fakeIndel
  | localMis
deriving Repr, DecidableEq

/-- The observable effects of classifying one adjacent pair in
`process_misassembled_contig`: the verdict, the entries appended to
`region_misassemblies`, the `'M'` markers written into `ref_features`
(reference name and position, in write order), and the increment of
`misassemblies_matched_sv`. -/
structure StepResult where
  verdict : PairVerdict
  regionAppends : List Misassembly
  featureWrites : List (String × Int)
  matchedSvInc : Nat
deriving Repr, DecidableEq

/-- The branch ladder of `process_misassembled_contig` for one adjacent
pair, given the already-computed `is_misassembly` output and the pair as
it stands when the ladder runs (the source mutates the two alignments via
`exclude_internal_overlaps` before the ladder, so `align1`/`align2` here
are the post-exclusion alignments while `aux` is pre-computed). -/
def classify_from_aux (env : Env) (is_extensive_misassembly : Bool) (aux : AuxData)
    (align1 align2 : Mapping) (contig_seq : List Char) : StepResult :=
  if aux.is_sv then
    ⟨.fakeSV, [], [], 1⟩
  else if env.cfg.scaffolds = true ∧ aux.is_scaffold_gap then
    ⟨.scaffoldGap, [.SCAFFOLD_GAP], [], 0⟩
  else if is_extensive_misassembly = true ∧ ¬ aux.is_sv then
    let kind : Misassembly :=
      if align1.ref ≠ align2.ref ∧ aux.is_translocation then
        if env.cfg.is_combined_ref = true ∧
            ¬ (env.refLabels align1.ref = env.refLabels align2.ref) then
          .INTERSPECTRANSLOCATION
        else .TRANSLOCATION
      else if |aux.inconsistency| > env.cfg.smgap then .RELOCATION
      else .INVERSION
    ⟨.extensive kind, [kind], [(align1.ref, align1.e1), (align2.ref, align2.e1)], 0⟩
  else
    if aux.inconsistency = 0 ∧ aux.cyclic_moment then
      ⟨.fakeCyclic, [], [], 0⟩
    else if env.cfg.check_for_fragmented_ref = true ∧ align1.ref ≠ align2.ref ∧
        ¬ aux.is_translocation then
      ⟨.fakeFragmented, [.FRAGMENTED], [], 0⟩
    else if |aux.inconsistency| ≤ env.cfg.MAX_INDEL_LENGTH ∧
        (count_not_ns_between_aligns contig_seq align1 align2 : Int) ≤
          env.cfg.MAX_INDEL_LENGTH then
      ⟨.fakeIndel, [], [], 0⟩
    else
      ⟨.localMis, [.LOCAL], [], 0⟩

/-- One full iteration of the loop of `process_misassembled_contig` for an
adjacent pair: compute `is_misassembly`, run `exclude_internal_overlaps`
when the pair shares a reference (or is a translocation across
references), then run the branch ladder on the post-exclusion pair.
Returns the classification effects, the post-exclusion pair and the
`align1.len2` decrease returned by the exclusion. -/
def pair_step (env : Env) (align1 align2 : Mapping)
    (cyclic_ref_lens : Option (String → Int)) (contig_seq : List Char) :
    StepResult × Mapping × Mapping × Int :=
  let (is_extensive_misassembly, aux) :=
    is_misassembly env align1 align2 cyclic_ref_lens contig_seq
  let (a1, a2, ret) :=
    if align1.ref = align2.ref ∨ (align1.ref ≠ align2.ref ∧ aux.is_translocation) then
      exclude_internal_overlaps env.cfg align1 align2
    else (align1, align2, 0)
  (classify_from_aux env is_extensive_misassembly aux a1 a2 contig_seq, a1, a2, ret)

/-- The classification of one adjacent pair (the first component of
`pair_step`). -/
def classify_pair (env : Env) (align1 align2 : Mapping)
    (cyclic_ref_lens : Option (String → Int)) (contig_seq : List Char) : StepResult :=
  (pair_step env align1 align2 cyclic_ref_lens contig_seq).1

/-- Does the iteration of `process_misassembled_contig` for this pair flush
`cur_aligned_length` into `contig_aligned_length` (the extensive branch
always does; the local branch does under `strict_NA`)? -/
def flush_of_verdict (cfg : Config) : PairVerdict → Bool
  | .extensive _ => true
  | .localMis => cfg.strict_NA
  | _ => false

/-- The aligned-length accounting loop of `process_misassembled_contig`:
state is the current first alignment of the pair (mutated in place by the
source), `cur_aligned_length` and `contig_aligned_length`; the result is
the final value of `contig_aligned_length` (the last `cur_aligned_length`
is folded in at the end, as in the source). -/
def process_aligned_loop (env : Env) (cyclic_ref_lens : Option (String → Int))
    (contig_seq : List Char) :
    Mapping → List Mapping → Int → Int → Int
  | _, [], cur, agg => agg + cur
  | p, q :: rest, cur, agg =>
      let (_, aux) := is_misassembly env p q cyclic_ref_lens contig_seq
      let (res, _, q', ret) := pair_step env p q cyclic_ref_lens contig_seq
      let cur1 := cur - ret
      let (agg1, cur2) :=
        if flush_of_verdict env.cfg res.verdict then (agg + cur1, 0)
        else (agg, cur1)
      let cur3 := cur2 + q'.len2 -
        (if aux.distance_on_contig < 0 then -aux.distance_on_contig else 0)
      process_aligned_loop env cyclic_ref_lens contig_seq q' rest cur3 agg1

/-- The final `contig_aligned_length` computed by
`process_misassembled_contig` on a non-empty list of alignments sorted by
contig start (the value the fatal assertion compares against
`len(contig_seq)`). -/
def contig_aligned_length (env : Env) (cyclic_ref_lens : Option (String → Int))
    (contig_seq : List Char) : List Mapping → Int
  | [] => 0
  | a :: rest => process_aligned_loop env cyclic_ref_lens contig_seq a rest a.len2 0

/-- `extensive_penalty` of the best-set search:
`max(50, int(round(min(smgap / 4.0, ctg_len * 0.05)))) - 1`, with the
inner float expression computed exactly as
`min(smgap/4, ctg_len·5/100) = min(5·smgap, ctg_len) / 20`. -/
def extensive_penalty (cfg : Config) (ctg_len : Nat) : Int :=
  max 50 (round_div (min (5 * cfg.smgap) (ctg_len : Int)) 20) - 1

/-- `local_penalty` of the best-set search:
`max(2, int(round(min(MAX_INDEL_LENGTH / 2.0, ctg_len * 0.01)))) - 1`,
with `min(MAX_INDEL_LENGTH/2, ctg_len/100) = min(50·MAX_INDEL_LENGTH, ctg_len) / 100`. -/
def local_penalty (cfg : Config) (ctg_len : Nat) : Int :=
  max 2 (round_div (min (50 * cfg.MAX_INDEL_LENGTH) (ctg_len : Int)) 100) - 1

/-- The `while` of `__get_added_len` accumulating `added_left`, walking
backwards through the previously chosen alignments (`last` is the current
`last_align`, the list holds the remaining earlier alignments in reverse
order; `acc` is `added_left`). -/
def added_left_loop (cur_start : Int) : Mapping → List Mapping → Int → Int
  | last, rest, acc =>
      if cur_start < last.start then
        let acc1 := acc + (last.start - cur_start)
        match rest with
        | next :: rest2 =>
            added_left_loop cur_start next rest2
              (acc1 - max 0 (min last.start next.end_ - cur_start + 1))
        | [] => acc1
      else acc

/-- `__get_added_len(set_aligns, cur_align)`: number of contig positions
the source credits `cur_align` with adding to the coverage of the chosen
set (`cur_align` is the last element of `set_aligns`; with fewer than two
elements the source never calls this). -/
def get_added_len (set_aligns : List Mapping) (cur_align : Mapping) : Int :=
  match set_aligns.reverse with
  | _ :: last :: rest =>
      (cur_align.end_ - max cur_align.start last.end_) +
        added_left_loop cur_align.start last rest 0
  | _ => 0

/-- `__get_score`: extend a chosen set's `(score, uncovered)` by its last
alignment, applying the pair penalty derived from `is_misassembly` on the
last two chosen alignments. -/
def get_score (env : Env) (cyclic_ref_lens : Option (String → Int))
    (contig_seq : List Char) (ext_p loc_p : Int) (score : Int)
    (aligns : List Mapping) (uncovered_len : Int) : Int × Int :=
  match aligns.reverse with
  | a2 :: a1 :: _ =>
      let added_len := get_added_len aligns a2
      let uncovered := uncovered_len - added_len
      let score1 := score + added_len
      let (is_ext, aux) := is_misassembly env a1 a2 cyclic_ref_lens contig_seq
      let score2 :=
        if is_ext then score1 - ext_p
        else if |aux.inconsistency| > env.cfg.MAX_INDEL_LENGTH ∧
            aux.is_scaffold_gap = false then score1 - loc_p
        else if aux.is_scaffold_gap then score1 - 5
        else score1
      (score2, uncovered)
  | [a] => (score + a.len2, uncovered_len - a.len2)
  | [] => (score, uncovered_len)

/-- A frontier element of the best-set search (`class ScoredAlignSet`). -/
structure ScoredAlignSet where
  score : Int
  indexes : List Nat
  uncovered : Int
deriving Repr, DecidableEq

/-- `[sorted_aligns[i] for i in indexes]`. -/
def chosenAligns (sorted_aligns : List Mapping) (indexes : List Nat) : List Mapping :=
  indexes.filterMap (fun i => sorted_aligns[i]?)

/-- The inner `for scored_set in all_scored_sets` of the best-set search:
returns the surviving frontier (removals applied), the final
`cur_max_score` and the final `new_scored_set` candidate. -/
def best_set_inner (env : Env) (cyclic_ref_lens : Option (String → Int))
    (contig_seq : List Char) (ext_p loc_p : Int) (sorted_aligns : List Mapping)
    (align : Mapping) (idx : Nat) (max_score : Int) :
    List ScoredAlignSet → Int → Option ScoredAlignSet →
    List ScoredAlignSet × Int × Option ScoredAlignSet
  | [], cur_max, new_set => ([], cur_max, new_set)
  | s :: rest, cur_max, new_set =>
      if s.score + align.len2 > cur_max then
        let score :=
          (get_score env cyclic_ref_lens contig_seq ext_p loc_p s.score
            (chosenAligns sorted_aligns s.indexes ++ [align]) s.uncovered).1
        let uncovered :=
          (get_score env cyclic_ref_lens contig_seq ext_p loc_p s.score
            (chosenAligns sorted_aligns s.indexes ++ [align]) s.uncovered).2
        if score + uncovered < max_score then
          best_set_inner env cyclic_ref_lens contig_seq ext_p loc_p sorted_aligns
            align idx max_score rest cur_max new_set
        else if score > cur_max then
          let r :=
            best_set_inner env cyclic_ref_lens contig_seq ext_p loc_p sorted_aligns
              align idx max_score rest score (some ⟨score, s.indexes ++ [idx], uncovered⟩)
          (s :: r.1, r.2.1, r.2.2)
        else
          let r :=
            best_set_inner env cyclic_ref_lens contig_seq ext_p loc_p sorted_aligns
              align idx max_score rest cur_max new_set
          (s :: r.1, r.2.1, r.2.2)
      else
        let r :=
          best_set_inner env cyclic_ref_lens contig_seq ext_p loc_p sorted_aligns
            align idx max_score rest cur_max new_set
        (s :: r.1, r.2.1, r.2.2)

/-- The outer `for idx, align in enumerate(sorted_aligns)` of the best-set
search, carrying the frontier, `max_score` and `best_set`. -/
def best_set_outer (env : Env) (cyclic_ref_lens : Option (String → Int))
    (contig_seq : List Char) (ext_p loc_p : Int) (sorted_aligns : List Mapping) :
    List (Nat × Mapping) → List ScoredAlignSet → Int → List Nat → Int × List Nat
  | [], _, max_score, best_set => (max_score, best_set)
  | (idx, align) :: rest, sets, max_score, best_set =>
      let r :=
        best_set_inner env cyclic_ref_lens contig_seq ext_p loc_p sorted_aligns
          align idx max_score sets 0 none
      match r.2.2 with
      | some ns =>
          if r.2.1 > max_score then
            best_set_outer env cyclic_ref_lens contig_seq ext_p loc_p sorted_aligns
              rest (r.1 ++ [ns]) r.2.1 ns.indexes
          else
            best_set_outer env cyclic_ref_lens contig_seq ext_p loc_p sorted_aligns
              rest (r.1 ++ [ns]) max_score best_set
      | none =>
          best_set_outer env cyclic_ref_lens contig_seq ext_p loc_p sorted_aligns
            rest r.1 max_score best_set

/-- The best-set search of the multi-alignment path (source lines
1118–1145): returns `(max_score, best_set)` for the end-sorted alignments
of one contig. -/
def best_set_search (env : Env) (cyclic_ref_lens : Option (String → Int))
    (contig_seq : List Char) (sorted_aligns : List Mapping) : Int × List Nat :=
  let ctg_len := contig_seq.length
  best_set_outer env cyclic_ref_lens contig_seq
    (extensive_penalty env.cfg ctg_len) (local_penalty env.cfg ctg_len)
    sorted_aligns sorted_aligns.enum [⟨0, [], (ctg_len : Int)⟩] 0 []

/-- Evaluate the search's own objective along a subsequence of indexes:
fold `__get_score` over the chosen prefix exactly as the search does,
starting from `(0, ctg_len)`; carries the chosen alignments. -/
def chain_eval_go (env : Env) (cyclic_ref_lens : Option (String → Int))
    (contig_seq : List Char) (ext_p loc_p : Int) (sorted_aligns : List Mapping) :
    List Nat → List Mapping → Int → Int → Int × Int
  | [], _, score, uncovered => (score, uncovered)
  | i :: rest, chosen, score, uncovered =>
      match sorted_aligns[i]? with
      | some a =>
          chain_eval_go env cyclic_ref_lens contig_seq ext_p loc_p sorted_aligns
            rest (chosen ++ [a])
            (get_score env cyclic_ref_lens contig_seq ext_p loc_p score
              (chosen ++ [a]) uncovered).1
            (get_score env cyclic_ref_lens contig_seq ext_p loc_p score
              (chosen ++ [a]) uncovered).2
      | none =>
          chain_eval_go env cyclic_ref_lens contig_seq ext_p loc_p sorted_aligns
            rest chosen score uncovered

/-- The objective of the claim, `score = Σ added_covered_length − Σ pair
penalties`, evaluated on the subsequence of `sorted_aligns` selected by
`indexes` (with the code's own `__get_score` as the scorer). -/
def subseq_score (env : Env) (cyclic_ref_lens : Option (String → Int))
    (contig_seq : List Char) (sorted_aligns : List Mapping) (indexes : List Nat) : Int :=
  (chain_eval_go env cyclic_ref_lens contig_seq
    (extensive_penalty env.cfg contig_seq.length) (local_penalty env.cfg contig_seq.length)
    sorted_aligns indexes [] 0 (contig_seq.length : Int)).1

/-- Whitespace tokenizer standing in for Python `str.split()`: splits a
character list on runs of whitespace, discarding empty tokens. -/
def tokenize_ws (cs : List Char) : List (List Char) :=
  let p := cs.foldr (fun c acc =>
    if c.isWhitespace then
      if acc.2 = ([] : List Char) then (acc.1, []) else (acc.2 :: acc.1, [])
    else (acc.1, c :: acc.2)) ([], [])
  if p.2 = ([] : List Char) then p.1 else p.2 :: p.1

/-- Digit-string parser (`int()` on an unsigned token). -/
def parse_nat_core (cs : List Char) : Option Nat :=
  if cs = [] then none
  else
    cs.foldl (fun acc c =>
      match acc with
      | none => none
      | some n => if c.isDigit then some (n * 10 + (c.toNat - 48)) else none)
      (some 0)

/-- Python `int()` on a whitespace-free token: optional sign, digits. -/
def parse_int_token : List Char → Option Int
  | '-' :: rest => (parse_nat_core rest).map (fun n => -(n : Int))
  | '+' :: rest => (parse_nat_core rest).map (fun n => (n : Int))
  | cs => (parse_nat_core cs).map (fun n => (n : Int))

/-- Decimal parser standing in for Python `float()` on the `idy` field
(the coords records carry plain decimals such as `99.9900`; exponent and
special-value float syntax is not modelled). -/
def parse_float_token (cs : List Char) : Option ℚ :=
  let (sign, body) : ℚ × List Char :=
    match cs with
    | '-' :: rest => (-1, rest)
    | '+' :: rest => (1, rest)
    | _ => (1, cs)
  let intPart := body.takeWhile (fun c => c ≠ '.')
  match body.dropWhile (fun c => c ≠ '.') with
  | [] =>
      match parse_nat_core intPart with
      | some n => some (sign * n)
      | none => none
  | _ :: fracPart =>
      if intPart = [] ∧ fracPart = [] then none
      else if fracPart.any (fun c => c = '.') then none
      else
        match intPart, fracPart with
        | [], f =>
            match parse_nat_core f with
            | some fn => some (sign * ((fn : ℚ) / (10 : ℚ) ^ f.length))
            | none => none
        | i, [] =>
            match parse_nat_core i with
            | some n => some (sign * n)
            | none => none
        | i, f =>
            match parse_nat_core i, parse_nat_core f with
            | some n, some fn =>
                some (sign * ((n : ℚ) + (fn : ℚ) / (10 : ℚ) ^ f.length))
            | _, _ => none

/-- `Mapping.from_line`: parse one coords record.  The source indexes the
whitespace-split tokens, `assert`s the pipes at positions 2/5/8/10 and
converts the numeric fields with `int()`/`float()`; any `IndexError`,
`AssertionError` or `ValueError` propagates — modelled as `none`. -/
def Mapping.from_line (line : String) : Option Mapping :=
  let t := tokenize_ws line.data
  match t[2]?, t[5]?, t[8]?, t[10]?, t[12]?, t[11]? with
  | some p1, some p2, some p3, some p4, some contig, some ref =>
      if p1 = ['|'] ∧ p2 = ['|'] ∧ p3 = ['|'] ∧ p4 = ['|'] then
        match t[0]?.bind parse_int_token, t[1]?.bind parse_int_token,
              t[3]?.bind parse_int_token, t[4]?.bind parse_int_token,
              t[6]?.bind parse_int_token, t[7]?.bind parse_int_token,
              t[9]?.bind parse_float_token with
        | some s1, some e1, some s2, some e2, some len1, some len2, some idy =>
            some ⟨s1, e1, s2, e2, len1, len2, idy, String.mk ref, String.mk contig⟩
        | _, _, _, _, _, _, _ => none
      else none
  | _, _, _, _, _, _ => none

/-- The coords-parsing loop of `plantakolya` (source lines 366–375), after
the two header lines: stop at the first blank line; `assert line[0] != '='`
and `Mapping.from_line` failures propagate out of the loop and abort the
analysis of the assembly — the uncaught exception is modelled as `none`. -/
def parse_coords_lines : List String → Option (List Mapping)
  | [] => some []
  | line :: rest =>
      if line.data.all Char.isWhitespace then some []
      else if line.data.head? = some '=' then none
      else
        match Mapping.from_line line with
        | none => none
        | some m =>
            match parse_coords_lines rest with
            | some ms => some (m :: ms)
            | none => none

/-- The extensive-misassemblies total of the per-assembly report
(`MIS_ALL_EXTENSIVE`, source lines 1955–1956): the length of
`region_misassemblies` minus the counts of `LOCAL`, `SCAFFOLD_GAP` and
`FRAGMENTED` entries only. -/
def mis_all_extensive (region_misassemblies : List Misassembly) : Int :=
  (region_misassemblies.length : Int)
    - region_misassemblies.count .LOCAL
    - region_misassemblies.count .SCAFFOLD_GAP
    - region_misassemblies.count .FRAGMENTED

/-- `add_potential_misassembly`: appends `POTENTIALLY_MISASSEMBLIES` to
`region_misassemblies` (the per-reference counter the source also bumps is
not needed by the claims and is not modelled). -/
def add_potential_misassembly (region_misassemblies : List Misassembly) :
    List Misassembly :=
  region_misassemblies ++ [.POTENTIALLY_MISASSEMBLIES]

/-- The append `check_for_potential_translocation` performs once per
qualifying contig (source line 630). -/
def append_potentially_mis_contig (region_misassemblies : List Misassembly) :
    List Misassembly :=
  region_misassemblies ++ [.POTENTIALLY_MIS_CONTIGS]

/-- C10: the reported extensive-misassemblies total is
`len(region_misassemblies)` minus the counts of `LOCAL`, `SCAFFOLD_GAP`
and `FRAGMENTED` only, so each `POTENTIALLY_MISASSEMBLIES` entry appended
by `add_potential_misassembly` and each `POTENTIALLY_MIS_CONTIGS` entry
appended by `check_for_potential_translocation` increases the reported
total by exactly one. -/
theorem mis_all_extensive_counts_potential_entries (rm : List Misassembly) :
    mis_all_extensive (add_potential_misassembly rm) = mis_all_extensive rm + 1 ∧
    mis_all_extensive (append_potentially_mis_contig rm) = mis_all_extensive rm + 1 := by
  unfold mis_all_extensive add_potential_misassembly append_potentially_mis_contig
  simp [List.count_append]
  omega

/-- C9: `exclude_internal_overlaps` returns exactly the decrease of the
first alignment's `len2`, and with ambiguity policy `all` or a
non-negative contig gap it returns 0 and leaves both alignments
unmodified. -/
theorem exclude_internal_overlaps_ret_eq_len2_decrease (cfg : Config)
    (align1 align2 : Mapping) :
    (exclude_internal_overlaps cfg align1 align2).2.2 =
      align1.len2 - (exclude_internal_overlaps cfg align1 align2).1.len2 ∧
    ((cfg.ambiguity_usage = "all" ∨
        min align2.e2 align2.s2 - max align1.e2 align1.s2 - 1 ≥ 0) →
      exclude_internal_overlaps cfg align1 align2 = (align1, align2, 0)) := by
  constructor
  · simp only [exclude_internal_overlaps]
    split_ifs <;> simp
  · intro h
    simp only [exclude_internal_overlaps]
    rcases h with h | h
    · simp [h]
    · split_ifs <;> rfl

/-- If `is_misassembly` reports an extensive misassembly then neither the
SV nor the scaffold-gap early return fired. -/
theorem is_misassembly_true_flags (env : Env) (a1 a2 : Mapping)
    (cyc : Option (String → Int)) (seq : List Char) (aux : AuxData)
    (h : is_misassembly env a1 a2 cyc seq = (true, aux)) :
    aux.is_sv = false ∧ aux.is_scaffold_gap = false := by
  simp only [is_misassembly] at h
  split_ifs at h with h1 h2 h3 h4
  · exact absurd (congrArg Prod.fst h) (by simp)
  · exact absurd (congrArg Prod.fst h) (by simp)
  · exact absurd (congrArg Prod.fst h) (by simp)
  · have haux := congrArg Prod.snd h
    simp only [Prod.snd] at haux
    refine ⟨?_, ?_⟩
    · rw [← haux]
      simpa using h2
    · rw [← haux]
  · exact absurd (congrArg Prod.fst h) (by simp)

/-- `exclude_internal_overlaps` never changes the reference names of the
two alignments. -/
theorem exclude_internal_overlaps_refs (cfg : Config) (a1 a2 : Mapping) :
    (exclude_internal_overlaps cfg a1 a2).1.ref = a1.ref ∧
    (exclude_internal_overlaps cfg a1 a2).2.1.ref = a2.ref := by
  simp only [exclude_internal_overlaps, shift_start, shift_end]
  split_ifs <;> simp

/-- Witness for the hypothesis part of
`exclude_internal_overlaps_ret_eq_len2_decrease`: a concrete pair with a
positive contig gap is returned unchanged with return value 0. -/
theorem exclude_internal_overlaps_ret_eq_len2_decrease_witness :
    (exclude_internal_overlaps
        ⟨false, 1000, 10, 85, 1000, false, false, "one", false⟩
        ⟨1, 100, 1, 100, 100, 100, 100, "R", "ctg"⟩
        ⟨201, 300, 201, 300, 100, 100, 100, "R", "ctg"⟩) =
      (⟨1, 100, 1, 100, 100, 100, 100, "R", "ctg"⟩,
       ⟨201, 300, 201, 300, 100, 100, 100, "R", "ctg"⟩, 0) :=
  (exclude_internal_overlaps_ret_eq_len2_decrease _ _ _).2 (Or.inr (by decide))

/-! Shared concrete fixtures for witnesses and counterexamples. -/

/-- A default-like configuration: scaffolds mode off, thresholds at the
QUAST defaults (`extensive_misassembly_threshold = 1000`,
`MAX_INDEL_LENGTH = 85`, `Ns_break_threshold = 10`), ambiguity `one`. -/
def test_cfg : Config := ⟨false, 1000, 10, 85, 1000, false, false, "one", false⟩

def test_env : Env := ⟨test_cfg, fun _ => 0, fun _ => 0, fun _ => "", none⟩

/-- Scaffolds-mode variant of `test_cfg`. -/
def scaf_cfg : Config := ⟨true, 1000, 10, 85, 1000, false, false, "one", false⟩

def scaf_env : Env := ⟨scaf_cfg, fun _ => 0, fun _ => 0, fun _ => "", none⟩

/-- A forward alignment covering contig `[1,100]` at reference `[1,100]`. -/
def cexA1 : Mapping := ⟨1, 100, 1, 100, 100, 100, 100, "R", "ctg"⟩

/-- A reverse-strand alignment at contig `[101,200]`, far away on the same
reference (`[3000,3099]`), so the pair has both a strand mismatch and
`|inconsistency| = 2899 > smgap`. -/
def cexInv : Mapping := ⟨3000, 3099, 200, 101, 100, 100, 100, "R", "ctg"⟩

/-- C2 amended: for an adjacent same-reference pair classified as an
extensive misassembly, the branch on `|inconsistency| > smgap` is checked
first: the pair is classified `RELOCATION` whenever
`|inconsistency| > smgap` — even when the strands also differ — and
`INVERSION` otherwise (strand mismatch with small inconsistency). -/
theorem relocation_takes_precedence_over_inversion (env : Env) (a1 a2 : Mapping)
    (cyc : Option (String → Int)) (seq : List Char) (aux : AuxData)
    (h : is_misassembly env a1 a2 cyc seq = (true, aux))
    (href : a1.ref = a2.ref) :
    (classify_pair env a1 a2 cyc seq).verdict =
      .extensive (if |aux.inconsistency| > env.cfg.smgap then Misassembly.RELOCATION
        else Misassembly.INVERSION) ∧
    (classify_pair env a1 a2 cyc seq).regionAppends =
      [if |aux.inconsistency| > env.cfg.smgap then Misassembly.RELOCATION
        else Misassembly.INVERSION] := by
  obtain ⟨hsv, hscaf⟩ := is_misassembly_true_flags env a1 a2 cyc seq aux h
  have hrefs := exclude_internal_overlaps_refs env.cfg a1 a2
  simp only [classify_pair, pair_step, h, classify_from_aux, href]
  simp only [hsv, hscaf, if_true, if_false, Bool.false_eq_true, and_true, and_false,
    not_false_eq_true, true_and]
  split_ifs with hx h1 h2 <;> simp_all

/-- C2 counterexample: a same-reference pair with differing strands and
`|inconsistency| = 2899 > smgap` is an extensive misassembly and is
classified `RELOCATION`, not `INVERSION` as the claim requires for every
strand mismatch. -/
theorem strand_mismatch_large_inconsistency_is_relocation :
    decide (cexA1.s2 < cexA1.e2) ≠ decide (cexInv.s2 < cexInv.e2) ∧
    cexA1.ref = cexInv.ref ∧
    (is_misassembly test_env cexA1 cexInv none (List.replicate 200 'A')).1 = true ∧
    |(is_misassembly test_env cexA1 cexInv none (List.replicate 200 'A')).2.inconsistency| >
      test_env.cfg.smgap ∧
    (classify_pair test_env cexA1 cexInv none (List.replicate 200 'A')).regionAppends =
      [Misassembly.RELOCATION] := by
  decide

/-- Witness for `relocation_takes_precedence_over_inversion` at the pair of
`strand_mismatch_large_inconsistency_is_relocation`. -/
theorem relocation_takes_precedence_over_inversion_witness :
    (classify_pair test_env cexA1 cexInv none (List.replicate 200 'A')).verdict =
      .extensive (if |(is_misassembly test_env cexA1 cexInv none
          (List.replicate 200 'A')).2.inconsistency| > test_env.cfg.smgap then
        Misassembly.RELOCATION else Misassembly.INVERSION) :=
  (relocation_takes_precedence_over_inversion test_env cexA1 cexInv none
    (List.replicate 200 'A')
    (is_misassembly test_env cexA1 cexInv none (List.replicate 200 'A')).2
    (by decide) (by decide)).1

/-- A gap that is entirely `N` and at least `Ns_break_threshold` long
passes `is_gap_filled_ns` (the integer quotient is 1). -/
theorem is_gap_filled_ns_of_all_N (cfg : Config) (seq : List Char) (a1 a2 : Mapping)
    (hlen : cfg.Ns_break_threshold ≤ (gap_in_contig seq a1 a2).length)
    (hpos : 0 < (gap_in_contig seq a1 a2).length)
    (hN : ∀ c ∈ gap_in_contig seq a1 a2, c = 'N') :
    is_gap_filled_ns cfg seq a1 a2 = true := by
  unfold is_gap_filled_ns
  rw [if_neg (by omega)]
  have hcount : (gap_in_contig seq a1 a2).count 'N' = (gap_in_contig seq a1 a2).length := by
    rw [List.count_eq_length]
    intro b hb
    simp [hN b hb]
  rw [hcount, Nat.div_self hpos]
  norm_num

/-- When the scaffold-gap early return of `is_misassembly` fires, the pair
is classified `SCAFFOLD_GAP`: one `SCAFFOLD_GAP` entry is appended, no
feature markers are written, `misassemblies_matched_sv` is not
incremented, and `aux_data["is_sv"]` is `False`. -/
theorem classify_pair_scaffold_gap (env : Env) (a1 a2 : Mapping)
    (cyc : Option (String → Int)) (seq : List Char)
    (hpath : scaffold_gap_path env a1 a2 cyc seq) :
    classify_pair env a1 a2 cyc seq =
      ⟨.scaffoldGap, [.SCAFFOLD_GAP], [], 0⟩ ∧
    (is_misassembly env a1 a2 cyc seq).2.is_sv = false := by
  have hmis : is_misassembly env a1 a2 cyc seq =
      (false, ⟨(ref_distance_cm env a1 a2 cyc).1 - distance_on_contig a1 a2,
        distance_on_contig a1 a2,
        internal_overlap_of (distance_on_contig a1 a2) (ref_distance_cm env a1 a2 cyc).1,
        (ref_distance_cm env a1 a2 cyc).2, false, false, true⟩) := by
    simp only [is_misassembly, if_pos hpath]
  constructor
  · simp only [classify_pair, pair_step, hmis, classify_from_aux]
    rcases he : exclude_internal_overlaps env.cfg a1 a2 with ⟨p, q, r⟩
    simp [hpath.1, he]
  · rw [hmis]

/-- C3 amended: in scaffolds mode, an adjacent same-reference same-strand
pair with `|inconsistency| ≤ scaffolds_gap_threshold` and a contig gap of
length ≥ `Ns_break_threshold` is classified `SCAFFOLD_GAP` (fake, not
counted as a misassembly) when every base of the gap is `N` — not for
every `N`-fraction above 0.95: under Python 2 the source's
`count('N')/len` is integer division, so fractions strictly between 0.95
and 1 fail the check. -/
theorem scaffold_gap_requires_all_N (env : Env) (a1 a2 : Mapping)
    (cyc : Option (String → Int)) (seq : List Char)
    (hs : env.cfg.scaffolds = true) (hne : seq ≠ [])
    (href : a1.ref = a2.ref)
    (hstr : (a1.s2 < a1.e2) ↔ (a2.s2 < a2.e2))
    (hinc : |(ref_distance_cm env a1 a2 cyc).1 - distance_on_contig a1 a2| ≤
      env.cfg.scaffolds_gap_threshold)
    (hlen : env.cfg.Ns_break_threshold ≤ (gap_in_contig seq a1 a2).length)
    (hpos : 0 < (gap_in_contig seq a1 a2).length)
    (hN : ∀ c ∈ gap_in_contig seq a1 a2, c = 'N') :
    classify_pair env a1 a2 cyc seq = ⟨.scaffoldGap, [.SCAFFOLD_GAP], [], 0⟩ := by
  refine (classify_pair_scaffold_gap env a1 a2 cyc seq ⟨hs, hne, ?_⟩).1
  unfold check_is_scaffold_gap
  rw [if_pos ⟨hinc, href, is_gap_filled_ns_of_all_N env.cfg seq a1 a2 hlen hpos hN, hstr⟩]

/-- A same-strand partner for `cexA1` leaving the contig gap `[101,200]`,
collinear on the reference up to the gap (`inconsistency = 0`). -/
def cexB2 : Mapping := ⟨201, 300, 201, 300, 100, 100, 100, "R", "ctg"⟩

/-- Contig of length 300 whose gap bases 101–200 are 99 `N`s and one `C`:
the `N` fraction of the gap is 99/100, strictly between 0.95 and 1. -/
def seqMixed : List Char :=
  List.replicate 100 'A' ++ List.replicate 99 'N' ++ ['C'] ++ List.replicate 100 'A'

/-- Contig of length 300 whose gap bases 101–200 are all `N`. -/
def seqAllN : List Char :=
  List.replicate 100 'A' ++ List.replicate 100 'N' ++ List.replicate 100 'A'

set_option maxRecDepth 10000 in
/-- C3 counterexample: with scaffolds mode on, a same-reference
same-strand pair whose 100-base contig gap has `N`-fraction 99/100 — above
0.95 and below 1 — and `inconsistency = 0` is NOT classified
`SCAFFOLD_GAP` (it falls through to the fake-indel branch, appending
nothing), contradicting the claim for fractions strictly between 0.95
and 1. -/
theorem scaffold_gap_mixed_ns_counterexample :
    (100 * (gap_in_contig seqMixed cexA1 cexB2).count 'N' >
        95 * (gap_in_contig seqMixed cexA1 cexB2).length) ∧
    ((gap_in_contig seqMixed cexA1 cexB2).count 'N' <
        (gap_in_contig seqMixed cexA1 cexB2).length) ∧
    scaf_cfg.Ns_break_threshold ≤ (gap_in_contig seqMixed cexA1 cexB2).length ∧
    cexA1.ref = cexB2.ref ∧
    ((cexA1.s2 < cexA1.e2) ↔ (cexB2.s2 < cexB2.e2)) ∧
    |(ref_distance_cm scaf_env cexA1 cexB2 none).1 - distance_on_contig cexA1 cexB2| ≤
      scaf_cfg.scaffolds_gap_threshold ∧
    classify_pair scaf_env cexA1 cexB2 none seqMixed = ⟨.fakeIndel, [], [], 0⟩ := by
  decide

/-- Witness for `scaffold_gap_requires_all_N`: the all-`N` variant of the
same pair is classified `SCAFFOLD_GAP`. -/
theorem scaffold_gap_requires_all_N_witness :
    classify_pair scaf_env cexA1 cexB2 none seqAllN =
      ⟨.scaffoldGap, [.SCAFFOLD_GAP], [], 0⟩ :=
  scaffold_gap_requires_all_N scaf_env cexA1 cexB2 none seqAllN
    (by decide) (by decide) (by decide) (by decide) (by decide) (by decide)
    (by decide) (by decide)

/-- C4: the scaffold-gap rule is evaluated before the SV rule — whenever
the scaffold-gap early return fires, the pair is classified
`SCAFFOLD_GAP`, `aux_data["is_sv"]` stays `False` and
`misassemblies_matched_sv` is not incremented, even when `check_sv` would
match the pair against the SV table. -/
theorem scaffold_gap_precedes_sv_match (env : Env) (a1 a2 : Mapping)
    (cyc : Option (String → Int)) (seq : List Char) (rsv : StructuralVariations)
    (_hsv_table : env.sv = some rsv)
    (hpath : scaffold_gap_path env a1 a2 cyc seq)
    (_hmatch : check_sv env.cfg a1 a2
      ((ref_distance_cm env a1 a2 cyc).1 - distance_on_contig a1 a2) rsv = true) :
    classify_pair env a1 a2 cyc seq = ⟨.scaffoldGap, [.SCAFFOLD_GAP], [], 0⟩ ∧
    (is_misassembly env a1 a2 cyc seq).2.is_sv = false ∧
    (classify_pair env a1 a2 cyc seq).matchedSvInc = 0 := by
  obtain ⟨h1, h2⟩ := classify_pair_scaffold_gap env a1 a2 cyc seq hpath
  exact ⟨h1, h2, by rw [h1]⟩

/-- A relocation-SV table whose single entry matches the breakpoints of
the pair `(cexA1, cexC2)`. -/
def sv_table : StructuralVariations :=
  ⟨[], [(⟨90, 110, "R"⟩, ⟨115, 125, "R"⟩)], []⟩

def scaf_sv_env : Env := ⟨scaf_cfg, fun _ => 0, fun _ => 0, fun _ => "", some sv_table⟩

/-- Same-strand partner for `cexA1` with contig gap `[101,120]` (20 `N`s in
`seqN20`) and `inconsistency = 0`, whose breakpoints also match
`sv_table`. -/
def cexC2 : Mapping := ⟨121, 220, 121, 220, 100, 100, 100, "R", "ctg"⟩

def seqN20 : List Char :=
  List.replicate 100 'A' ++ List.replicate 20 'N' ++ List.replicate 100 'A'

/-- Witness for `scaffold_gap_precedes_sv_match`: a pair in an all-`N`
scaffold gap that also matches a relocation SV is classified
`SCAFFOLD_GAP` with no SV-counter increment. -/
theorem scaffold_gap_precedes_sv_match_witness :
    check_sv scaf_cfg cexA1 cexC2
        ((ref_distance_cm scaf_sv_env cexA1 cexC2 none).1 -
          distance_on_contig cexA1 cexC2) sv_table = true ∧
    classify_pair scaf_sv_env cexA1 cexC2 none seqN20 =
      ⟨.scaffoldGap, [.SCAFFOLD_GAP], [], 0⟩ ∧
    (classify_pair scaf_sv_env cexA1 cexC2 none seqN20).matchedSvInc = 0 :=
  ⟨by decide,
    (scaffold_gap_precedes_sv_match scaf_sv_env cexA1 cexC2 none seqN20 sv_table
      (by decide) (by decide) (by decide)).1,
    (scaffold_gap_precedes_sv_match scaf_sv_env cexA1 cexC2 none seqN20 sv_table
      (by decide) (by decide) (by decide)).2.2⟩

/-- The extensive branch of the ladder writes its two `'M'` markers at the
reference `e1` endpoints of the two alignments as they stand when the
ladder runs. -/
theorem classify_from_aux_extensive_writes (env : Env) (b : Bool) (aux : AuxData)
    (x1 x2 : Mapping) (seq : List Char) (k : Misassembly)
    (h : (classify_from_aux env b aux x1 x2 seq).verdict = .extensive k) :
    (classify_from_aux env b aux x1 x2 seq).featureWrites =
      [(x1.ref, x1.e1), (x2.ref, x2.e1)] := by
  unfold classify_from_aux at h ⊢
  split_ifs at h ⊢ <;> simp_all

/-- C8 amended: for every pair the ladder classifies as an extensive
misassembly, exactly two `'M'` markers are written into `ref_features`,
both at reference END positions: one at `p.e1` and one at `q.e1` of the
(post-overlap-exclusion) alignments — the source writes
`sorted_aligns[i+1].e1`, not the claim's `q.rs`. -/
theorem extensive_markers_at_reference_ends (env : Env) (a1 a2 : Mapping)
    (cyc : Option (String → Int)) (seq : List Char) (k : Misassembly)
    (h : (pair_step env a1 a2 cyc seq).1.verdict = .extensive k) :
    (pair_step env a1 a2 cyc seq).1.featureWrites =
      [((pair_step env a1 a2 cyc seq).2.1.ref, (pair_step env a1 a2 cyc seq).2.1.e1),
       ((pair_step env a1 a2 cyc seq).2.2.1.ref,
        (pair_step env a1 a2 cyc seq).2.2.1.e1)] := by
  rcases hm : is_misassembly env a1 a2 cyc seq with ⟨b, aux⟩
  rcases he : exclude_internal_overlaps env.cfg a1 a2 with ⟨p, q, r⟩
  simp only [pair_step, hm, he] at h ⊢
  split_ifs at h ⊢ <;> exact classify_from_aux_extensive_writes env b aux _ _ seq k h

/-- C8 counterexample: at the extensive pair `(cexA1, cexInv)` (no contig
overlap, so the exclusion changes nothing) the two markers are written at
`("R", cexA1.e1)` and `("R", cexInv.e1) = ("R", 3099)`; no marker is
written at the start `cexInv.s1 = 3000` that the claim requires. -/
theorem extensive_markers_counterexample :
    (classify_pair test_env cexA1 cexInv none (List.replicate 200 'A')).verdict =
      .extensive .RELOCATION ∧
    (classify_pair test_env cexA1 cexInv none (List.replicate 200 'A')).featureWrites =
      [("R", 100), ("R", 3099)] ∧
    cexInv.s1 = 3000 ∧
    ("R", cexInv.s1) ∉
      (classify_pair test_env cexA1 cexInv none (List.replicate 200 'A')).featureWrites := by
  decide

/-- Witness for `extensive_markers_at_reference_ends` at the same pair. -/
theorem extensive_markers_at_reference_ends_witness :
    (pair_step test_env cexA1 cexInv none (List.replicate 200 'A')).1.featureWrites =
      [((pair_step test_env cexA1 cexInv none (List.replicate 200 'A')).2.1.ref,
        (pair_step test_env cexA1 cexInv none (List.replicate 200 'A')).2.1.e1),
       ((pair_step test_env cexA1 cexInv none (List.replicate 200 'A')).2.2.1.ref,
        (pair_step test_env cexA1 cexInv none (List.replicate 200 'A')).2.2.1.e1)] :=
  extensive_markers_at_reference_ends test_env cexA1 cexInv none
    (List.replicate 200 'A') .RELOCATION (by decide)

/-- A well-formed coords record line. -/
def good_line : String := "1 100 | 1 100 | 100 100 | 99.99 | refX ctgY"

/-- The same record with the pipe separators missing: the `assert` in
`Mapping.from_line` fails on it. -/
def bad_line : String := "1 100 1 100 100 100 99.99 refX ctgY"

/-- C5 amended: a malformed record is NOT dropped — the uncaught
`AssertionError`/`ValueError`/`IndexError` from `Mapping.from_line` (or
the `assert line[0] != '='`) propagates out of the parsing loop and aborts
the analysis of the assembly, whatever records precede or follow it. -/
theorem malformed_record_aborts_parsing (pre : List String) (bad : String)
    (post : List String)
    (hpre : ∀ l ∈ pre, l.data.all Char.isWhitespace = false ∧
      l.data.head? ≠ some '=' ∧ (Mapping.from_line l).isSome = true)
    (hbad_nb : bad.data.all Char.isWhitespace = false)
    (hbad : bad.data.head? = some '=' ∨ Mapping.from_line bad = none) :
    parse_coords_lines (pre ++ bad :: post) = none := by
  induction pre with
  | nil =>
      simp only [List.nil_append, parse_coords_lines, hbad_nb, Bool.false_eq_true,
        if_false]
      rcases hbad with h | h
      · rw [if_pos h]
      · split_ifs
        · rfl
        · rw [h]
  | cons l ls ih =>
      obtain ⟨h1, h2, h3⟩ := hpre l (List.mem_cons_self l ls)
      obtain ⟨m, hm⟩ := Option.isSome_iff_exists.mp h3
      have hrest := ih (fun x hx => hpre x (List.mem_cons_of_mem l hx))
      simp only [List.cons_append, parse_coords_lines, h1, Bool.false_eq_true, if_false,
        if_neg h2, hm, List.append_eq, hrest]

/-- C5 counterexample: a record with the pipes missing aborts the parsing
loop — the loop returns no records at all (`none`), rather than dropping
the malformed record and yielding the two well-formed ones. -/
theorem malformed_record_dropped_counterexample :
    (Mapping.from_line good_line).isSome = true ∧
    Mapping.from_line bad_line = none ∧
    parse_coords_lines [good_line, bad_line, good_line] = none := by
  decide

/-- Witness for `malformed_record_aborts_parsing` at the concrete lines of
`malformed_record_dropped_counterexample`. -/
theorem malformed_record_aborts_parsing_witness :
    parse_coords_lines [good_line, bad_line, good_line] = none :=
  malformed_record_aborts_parsing [good_line] bad_line [good_line]
    (by decide) (by decide) (Or.inr (by decide))

/-- An alignment nested strictly inside the contig interval of `cexA1`. -/
def cexNested : Mapping := ⟨1050, 1060, 50, 60, 11, 11, 100, "R", "ctg"⟩

/-- C7 counterexample: excluding the overlap of a nested pair (policy
`one`) shifts the start of the inner alignment beyond its end; the
resulting `len2 = -40` violates both the claimed equation
`len2 = |s2-e2|+1` (which would give 42) and strict positivity. -/
theorem shift_negative_length_counterexample :
    (min cexNested.e2 cexNested.s2 - max cexA1.e2 cexA1.s2 - 1 < 0) ∧
    (exclude_internal_overlaps test_cfg cexA1 cexNested).2.1.len2 = -40 ∧
    ¬ ((exclude_internal_overlaps test_cfg cexA1 cexNested).2.1.len2 =
        |(exclude_internal_overlaps test_cfg cexA1 cexNested).2.1.s2 -
         (exclude_internal_overlaps test_cfg cexA1 cexNested).2.1.e2| + 1) ∧
    ¬ (0 < (exclude_internal_overlaps test_cfg cexA1 cexNested).2.1.len2) := by
  decide

set_option maxHeartbeats 1000000 in
/-- C7 amended: after the endpoint shifts of `exclude_internal_overlaps`
(any policy), both alignments satisfy `len1 = e1-s1+1` and
`len2 = |s2-e2|+1` with both lengths strictly positive, PROVIDED the
inputs are length-consistent and neither contig interval is nested in the
other (`start1 < start2` and `end1 < end2`) and the overlap is smaller
than both reference spans.  The nested case genuinely yields non-positive
lengths (see `shift_negative_length_counterexample`). -/
theorem exclude_internal_overlaps_length_invariant (cfg : Config) (a1 a2 : Mapping)
    (h1len1 : a1.len1 = a1.e1 - a1.s1 + 1) (h1s : a1.s1 ≤ a1.e1)
    (h1len2 : a1.len2 = |a1.s2 - a1.e2| + 1)
    (h2len1 : a2.len1 = a2.e1 - a2.s1 + 1) (h2s : a2.s1 ≤ a2.e1)
    (h2len2 : a2.len2 = |a2.s2 - a2.e2| + 1)
    (hstart : a1.start < a2.start) (hend : a1.end_ < a2.end_)
    (ho1 : a1.end_ - a2.start + 1 < a1.len1)
    (ho2 : a1.end_ - a2.start + 1 < a2.len1) :
    ((exclude_internal_overlaps cfg a1 a2).1.len1 =
        (exclude_internal_overlaps cfg a1 a2).1.e1 -
          (exclude_internal_overlaps cfg a1 a2).1.s1 + 1 ∧
      0 < (exclude_internal_overlaps cfg a1 a2).1.len1 ∧
      (exclude_internal_overlaps cfg a1 a2).1.len2 =
        |(exclude_internal_overlaps cfg a1 a2).1.s2 -
          (exclude_internal_overlaps cfg a1 a2).1.e2| + 1 ∧
      0 < (exclude_internal_overlaps cfg a1 a2).1.len2) ∧
    ((exclude_internal_overlaps cfg a1 a2).2.1.len1 =
        (exclude_internal_overlaps cfg a1 a2).2.1.e1 -
          (exclude_internal_overlaps cfg a1 a2).2.1.s1 + 1 ∧
      0 < (exclude_internal_overlaps cfg a1 a2).2.1.len1 ∧
      (exclude_internal_overlaps cfg a1 a2).2.1.len2 =
        |(exclude_internal_overlaps cfg a1 a2).2.1.s2 -
          (exclude_internal_overlaps cfg a1 a2).2.1.e2| + 1 ∧
      0 < (exclude_internal_overlaps cfg a1 a2).2.1.len2) := by
  simp only [Mapping.start, Mapping.end_] at hstart hend ho1 ho2
  simp only [abs_eq_max_neg] at h1len2 h2len2 ⊢
  rcases h : exclude_internal_overlaps cfg a1 a2 with ⟨p, q, r⟩
  simp only [exclude_internal_overlaps, shift_start, shift_end] at h
  split_ifs at h <;>
    (injection h with hp h2
     injection h2 with hq hr
     subst hp
     subst hq
     constructor <;> refine ⟨?_, ?_, ?_, ?_⟩ <;> simp <;> omega)

/-- A non-nested overlapping partner for `cexA1`: contig `[81,180]` at
reference `[301,400]` (overlap 20 on the contig). -/
def cexOverlap : Mapping := ⟨301, 400, 81, 180, 100, 100, 100, "R", "ctg"⟩

/-- Witness for `exclude_internal_overlaps_length_invariant` at a
non-nested overlapping pair under policy `one`. -/
theorem exclude_internal_overlaps_length_invariant_witness :
    0 < (exclude_internal_overlaps test_cfg cexA1 cexOverlap).1.len2 ∧
    0 < (exclude_internal_overlaps test_cfg cexA1 cexOverlap).2.1.len2 :=
  ⟨(exclude_internal_overlaps_length_invariant test_cfg cexA1 cexOverlap
      (by decide) (by decide) (by decide) (by decide) (by decide) (by decide)
      (by decide) (by decide) (by decide) (by decide)).1.2.2.2,
   (exclude_internal_overlaps_length_invariant test_cfg cexA1 cexOverlap
      (by decide) (by decide) (by decide) (by decide) (by decide) (by decide)
      (by decide) (by decide) (by decide) (by decide)).2.2.2.2⟩

/-- The `distance_on_contig` entry of `aux_data` is the plain contig gap,
whatever branch `is_misassembly` takes. -/
theorem is_misassembly_distance (env : Env) (a1 a2 : Mapping)
    (cyc : Option (String → Int)) (seq : List Char) :
    (is_misassembly env a1 a2 cyc seq).2.distance_on_contig =
      distance_on_contig a1 a2 := by
  simp only [is_misassembly]
  split_ifs <;> rfl

set_option maxHeartbeats 2000000 in
/-- Key accounting bound for one loop iteration of
`process_misassembled_contig`: for a running sum `S ≤ start(p)+p.len2-1`
and a fresh length-consistent `q`, the new running sum after the
exclusion's `len2`-decrease refund, the addition of `q`'s (possibly
shifted) `len2` and the overlap subtraction is at most `q`'s original
contig end, and re-establishes the same invariant for the shifted `q`. -/
theorem exclude_step_key (cfg : Config) (p q : Mapping)
    (_hq1 : 1 ≤ q.start) (hq3 : q.len2 = q.end_ - q.start + 1)
    (hfp : p.start + p.len2 - 1 ≤ p.end_) (S : Int)
    (hS : S ≤ p.start + p.len2 - 1) :
    S - (exclude_internal_overlaps cfg p q).2.2 +
        (exclude_internal_overlaps cfg p q).2.1.len2 -
        (if distance_on_contig p q < 0 then -(distance_on_contig p q) else 0) ≤
      q.end_ ∧
    S - (exclude_internal_overlaps cfg p q).2.2 +
        (exclude_internal_overlaps cfg p q).2.1.len2 -
        (if distance_on_contig p q < 0 then -(distance_on_contig p q) else 0) ≤
      (exclude_internal_overlaps cfg p q).2.1.start +
        (exclude_internal_overlaps cfg p q).2.1.len2 - 1 ∧
    (exclude_internal_overlaps cfg p q).2.1.start +
        (exclude_internal_overlaps cfg p q).2.1.len2 - 1 ≤
      (exclude_internal_overlaps cfg p q).2.1.end_ := by
  simp only [Mapping.start, Mapping.end_] at hq3 hfp hS ⊢
  simp only [distance_on_contig]
  rcases h : exclude_internal_overlaps cfg p q with ⟨p2, q2, ret⟩
  simp only [exclude_internal_overlaps, shift_start, shift_end] at h
  split_ifs at h <;>
    (injection h with hp h2
     injection h2 with hq hr
     subst hq
     subst hr
     refine ⟨?_, ?_, ?_⟩ <;>
       (simp only [Mapping.start, Mapping.end_]
        (try split_ifs) <;> (try simp) <;> omega))

/-- The aligned-length invariant of the classifier loop: if every
remaining alignment lies inside the contig and is length-consistent, and
the running sum `agg + cur` is bounded by the invariant of the current
first alignment `p`, then the final `contig_aligned_length` stays within
the contig length. -/
theorem process_loop_bound (env : Env) (cyc : Option (String → Int)) (seq : List Char)
    (L : List Mapping) :
    ∀ (p : Mapping) (cur agg : Int),
      (∀ x ∈ L, 1 ≤ x.start ∧ x.end_ ≤ (seq.length : Int) ∧
        x.len2 = x.end_ - x.start + 1) →
      agg + cur ≤ p.start + p.len2 - 1 →
      p.start + p.len2 - 1 ≤ p.end_ →
      agg + cur ≤ (seq.length : Int) →
      process_aligned_loop env cyc seq p L cur agg ≤ (seq.length : Int) := by
  induction L with
  | nil =>
      intro p cur agg _ _ _ hlen
      simpa [process_aligned_loop] using hlen
  | cons q L ih =>
      intro p cur agg hL hS hfp hlen
      obtain ⟨hq1, hq2, hq3⟩ := hL q (List.mem_cons_self q L)
      rcases hm : is_misassembly env p q cyc seq with ⟨b, aux⟩
      have hd : aux.distance_on_contig = distance_on_contig p q := by
        have h0 := is_misassembly_distance env p q cyc seq
        rw [hm] at h0
        exact h0
      simp only [process_aligned_loop, pair_step, hm]
      by_cases hc : p.ref = q.ref ∨ (p.ref ≠ q.ref ∧ aux.is_translocation = true)
      · rw [if_pos hc]
        rcases hex : exclude_internal_overlaps env.cfg p q with ⟨p2, q2, ret⟩
        have hkey := exclude_step_key env.cfg p q hq1 hq3 hfp (agg + cur) hS
        rw [hex] at hkey
        simp only at hkey
        obtain ⟨hk1, hk2, hk3⟩ := hkey
        rw [hd]
        cases hfl : flush_of_verdict env.cfg
            (classify_from_aux env b aux p2 q2 seq).verdict <;>
          simp only [hfl, Bool.false_eq_true, if_false, if_true, reduceIte] <;>
          apply ih _ _ _ (fun x hx => hL x (List.mem_cons_of_mem q hx)) <;> omega
      · rw [if_neg hc]
        rw [hd]
        have hdd : distance_on_contig p q = q.start - p.end_ - 1 := by
          simp only [distance_on_contig, Mapping.start, Mapping.end_]
          omega
        cases hfl : flush_of_verdict env.cfg
            (classify_from_aux env b aux p q seq).verdict <;>
          simp only [hfl, Bool.false_eq_true, if_false, if_true, reduceIte] <;>
          split_ifs <;>
          apply ih _ _ _ (fun x hx => hL x (List.mem_cons_of_mem q hx)) <;>
          omega

/-- C6: for every contig processed by the classifier, with alignments that
lie inside the contig (`1 ≤ start`, `end ≤ ctg_len`) and carry consistent
`len2` fields — the invariants of the loaded data model — the accumulated
`contig_aligned_length` is at most the contig length: the fatal
aligned-length assertion at the end of `process_misassembled_contig`
cannot fire. -/
theorem contig_aligned_length_le_ctg_len (env : Env)
    (cyc : Option (String → Int)) (seq : List Char) (aligns : List Mapping)
    (h : ∀ x ∈ aligns, 1 ≤ x.start ∧ x.end_ ≤ (seq.length : Int) ∧
      x.len2 = x.end_ - x.start + 1) :
    contig_aligned_length env cyc seq aligns ≤ (seq.length : Int) := by
  cases aligns with
  | nil => simp [contig_aligned_length]
  | cons a rest =>
      obtain ⟨h1, h2, h3⟩ := h a (List.mem_cons_self a rest)
      exact process_loop_bound env cyc seq rest a a.len2 0
        (fun x hx => h x (List.mem_cons_of_mem a hx)) (by omega) (by omega) (by omega)

set_option maxRecDepth 10000 in
/-- Witness for `contig_aligned_length_le_ctg_len` on a concrete
overlapping pair within a 300-base contig. -/
theorem contig_aligned_length_le_ctg_len_witness :
    contig_aligned_length test_env none (List.replicate 300 'A')
      [cexA1, cexOverlap] ≤ ((List.replicate 300 'A').length : Int) :=
  contig_aligned_length_le_ctg_len test_env none (List.replicate 300 'A')
    [cexA1, cexOverlap] (by decide)


theorem chosenAligns_nil (sa : List Mapping) : chosenAligns sa [] = [] := rfl

theorem chosenAligns_cons (sa : List Mapping) (j : Nat) (ids : List Nat) :
    chosenAligns sa (j :: ids) =
      (match sa[j]? with
        | some b => b :: chosenAligns sa ids
        | none => chosenAligns sa ids) := by
  simp only [chosenAligns, List.filterMap_cons]
  cases sa[j]? <;> rfl

theorem chain_eval_go_snoc (env : Env) (cyc : Option (String → Int))
    (seq : List Char) (e l : Int) (sa : List Mapping) (i : Nat) (ids : List Nat) :
    ∀ (chosen : List Mapping) (score unc : Int),
    chain_eval_go env cyc seq e l sa (ids ++ [i]) chosen score unc =
      (match sa[i]? with
       | some a =>
          ((get_score env cyc seq e l
              (chain_eval_go env cyc seq e l sa ids chosen score unc).1
              ((chosen ++ chosenAligns sa ids) ++ [a])
              (chain_eval_go env cyc seq e l sa ids chosen score unc).2).1,
           (get_score env cyc seq e l
              (chain_eval_go env cyc seq e l sa ids chosen score unc).1
              ((chosen ++ chosenAligns sa ids) ++ [a])
              (chain_eval_go env cyc seq e l sa ids chosen score unc).2).2)
       | none => chain_eval_go env cyc seq e l sa ids chosen score unc) := by
  induction ids with
  | nil =>
      intro chosen score unc
      simp only [List.nil_append, chain_eval_go, chosenAligns_nil, List.append_nil]
  | cons j ids ih =>
      intro chosen score unc
      simp only [List.cons_append, chain_eval_go, List.append_eq]
      cases hj : sa[j]? with
      | none => simp only [ih, chosenAligns_cons, hj]
      | some b =>
          simp only [ih, chosenAligns_cons, hj, List.append_assoc, List.cons_append,
            List.nil_append]

/-- Frontier invariant of the best-set search after the first `k`
alignments have been considered: the stored index chain is a subsequence
of `range k` and the stored `(score, uncovered)` pair is exactly the fold
of `__get_score` along that chain from `(0, ctg_len)`. -/
def SetInv (env : Env) (cyc : Option (String → Int)) (seq : List Char)
    (e l : Int) (sa : List Mapping) (U : Int) (k : Nat) (s : ScoredAlignSet) : Prop :=
  List.Sublist s.indexes (List.range k) ∧
  (s.score, s.uncovered) = chain_eval_go env cyc seq e l sa s.indexes [] 0 U

theorem SetInv_mono (env : Env) (cyc : Option (String → Int)) (seq : List Char)
    (e l : Int) (sa : List Mapping) (U : Int) (k k' : Nat) (hk : k ≤ k')
    (s : ScoredAlignSet) (h : SetInv env cyc seq e l sa U k s) :
    SetInv env cyc seq e l sa U k' s :=
  ⟨h.1.trans (List.range_sublist.mpr hk), h.2⟩

theorem best_set_inner_spec (env : Env) (cyc : Option (String → Int)) (seq : List Char)
    (e l : Int) (sa : List Mapping) (align : Mapping) (k : Nat) (max_score : Int)
    (U : Int) (hsa : sa[k]? = some align) :
    ∀ (sets : List ScoredAlignSet) (cur_max : Int) (new_set : Option ScoredAlignSet),
    (∀ s ∈ sets, SetInv env cyc seq e l sa U k s) →
    (∀ ns, new_set = some ns →
        SetInv env cyc seq e l sa U (k + 1) ns ∧ cur_max = ns.score) →
    (∀ s ∈ (best_set_inner env cyc seq e l sa align k max_score sets cur_max new_set).1,
        SetInv env cyc seq e l sa U k s) ∧
    (∀ ns,
        (best_set_inner env cyc seq e l sa align k max_score sets cur_max new_set).2.2 =
          some ns →
        SetInv env cyc seq e l sa U (k + 1) ns ∧
        (best_set_inner env cyc seq e l sa align k max_score sets cur_max
          new_set).2.1 = ns.score) := by
  intro sets
  induction sets with
  | nil =>
      intro cur_max new_set hsets hnew
      refine ⟨?_, ?_⟩
      · intro s hs
        simp only [best_set_inner] at hs
        exact absurd hs (List.not_mem_nil s)
      · intro ns hns
        simp only [best_set_inner] at hns ⊢
        exact hnew ns hns
  | cons s rest ih =>
      intro cur_max new_set hsets hnew
      have hInv : SetInv env cyc seq e l sa U k s := hsets s (List.mem_cons_self s rest)
      have hrest : ∀ x ∈ rest, SetInv env cyc seq e l sa U k x :=
        fun x hx => hsets x (List.mem_cons_of_mem s hx)
      have h1s : s.score = (chain_eval_go env cyc seq e l sa s.indexes [] 0 U).1 :=
        congrArg Prod.fst hInv.2
      have h2s : s.uncovered = (chain_eval_go env cyc seq e l sa s.indexes [] 0 U).2 :=
        congrArg Prod.snd hInv.2
      have hc := chain_eval_go_snoc env cyc seq e l sa k s.indexes [] 0 U
      simp only [hsa, List.nil_append] at hc
      rw [← h1s, ← h2s] at hc
      have hnewinv : ∀ ns,
          (some (⟨(get_score env cyc seq e l s.score
              (chosenAligns sa s.indexes ++ [align]) s.uncovered).1,
            s.indexes ++ [k],
            (get_score env cyc seq e l s.score
              (chosenAligns sa s.indexes ++ [align]) s.uncovered).2⟩ :
              ScoredAlignSet) = some ns) →
          SetInv env cyc seq e l sa U (k + 1) ns ∧
            (get_score env cyc seq e l s.score
              (chosenAligns sa s.indexes ++ [align]) s.uncovered).1 = ns.score := by
        intro ns hns
        injection hns with hns
        subst hns
        refine ⟨⟨?_, ?_⟩, rfl⟩
        · rw [List.range_succ]
          exact hInv.1.append (List.Sublist.refl [k])
        · exact hc.symm
      refine ⟨?_, ?_⟩
      · intro x hx
        simp only [best_set_inner] at hx
        split_ifs at hx with h1 h2 h3
        · exact (ih cur_max new_set hrest hnew).1 x hx
        · rcases List.mem_cons.mp hx with rfl | hm
          · exact hInv
          · exact (ih _ _ hrest hnewinv).1 x hm
        · rcases List.mem_cons.mp hx with rfl | hm
          · exact hInv
          · exact (ih cur_max new_set hrest hnew).1 x hm
        · rcases List.mem_cons.mp hx with rfl | hm
          · exact hInv
          · exact (ih cur_max new_set hrest hnew).1 x hm
      · intro ns hns
        simp only [best_set_inner] at hns ⊢
        split_ifs at hns ⊢ with h1 h2 h3
        · exact (ih cur_max new_set hrest hnew).2 ns hns
        · exact (ih _ _ hrest hnewinv).2 ns hns
        · exact (ih cur_max new_set hrest hnew).2 ns hns
        · exact (ih cur_max new_set hrest hnew).2 ns hns

theorem best_set_outer_spec (env : Env) (cyc : Option (String → Int)) (seq : List Char)
    (e l : Int) (sa : List Mapping) (U : Int) :
    ∀ (pending : List (Nat × Mapping)) (k : Nat) (sets : List ScoredAlignSet)
      (max_score : Int) (best_set : List Nat),
    pending = sa.enum.drop k →
    (∀ s ∈ sets, SetInv env cyc seq e l sa U k s) →
    List.Sublist best_set (List.range sa.length) →
    max_score = (chain_eval_go env cyc seq e l sa best_set [] 0 U).1 →
    List.Sublist
      (best_set_outer env cyc seq e l sa pending sets max_score best_set).2
      (List.range sa.length) ∧
    (best_set_outer env cyc seq e l sa pending sets max_score best_set).1 =
      (chain_eval_go env cyc seq e l sa
        (best_set_outer env cyc seq e l sa pending sets max_score best_set).2
        [] 0 U).1 := by
  intro pending
  induction pending with
  | nil =>
      intro k sets max_score best_set _ _ hbs hms
      simp only [best_set_outer]
      exact ⟨hbs, hms⟩
  | cons p rest ih =>
      intro k sets max_score best_set hpend hsets hbs hms
      obtain ⟨idx, align⟩ := p
      have h0 : sa.enum[k]? = some (idx, align) := by
        have h0' : (sa.enum.drop k)[0]? = some (idx, align) := by
          rw [← hpend]; simp
        rwa [List.getElem?_drop, Nat.add_zero] at h0'
      have hrest : rest = sa.enum.drop (k + 1) := by
        have ht := congrArg List.tail hpend
        rw [List.tail_drop] at ht
        exact ht
      rw [List.getElem?_enum] at h0
      cases ha : sa[k]? with
      | none =>
          rw [ha] at h0
          exact absurd h0 (by simp)
      | some a =>
          rw [ha] at h0
          have hki : k = idx ∧ a = align := by
            simpa [Prod.ext_iff] using h0
          obtain ⟨hk1, hk2⟩ := hki
          subst hk1
          subst hk2
          have hklen : k < sa.length := (List.getElem?_eq_some.mp ha).1
          have hspec := best_set_inner_spec env cyc seq e l sa a k max_score U ha sets 0
            none hsets (fun ns hns => Option.noConfusion hns)
          simp only [best_set_outer]
          cases hr : (best_set_inner env cyc seq e l sa a k max_score sets 0 none).2.2 with
          | none =>
              simp only [hr]
              exact ih (k + 1) _ max_score best_set hrest
                (fun s hs =>
                  SetInv_mono env cyc seq e l sa U k (k + 1) (Nat.le_succ k) s
                    (hspec.1 s hs))
                hbs hms
          | some ns =>
              obtain ⟨hnsInv, hnsScore⟩ := hspec.2 ns hr
              have hnsSub : List.Sublist ns.indexes (List.range sa.length) :=
                hnsInv.1.trans (List.range_sublist.mpr hklen)
              have hnsEq : ns.score =
                  (chain_eval_go env cyc seq e l sa ns.indexes [] 0 U).1 :=
                congrArg Prod.fst hnsInv.2
              have hsets' : ∀ s ∈
                  (best_set_inner env cyc seq e l sa a k max_score sets 0 none).1 ++ [ns],
                  SetInv env cyc seq e l sa U (k + 1) s := by
                intro s hs
                rcases List.mem_append.mp hs with hm | hm
                · exact SetInv_mono env cyc seq e l sa U k (k + 1) (Nat.le_succ k) s
                    (hspec.1 s hm)
                · rw [List.mem_singleton.mp hm]
                  exact hnsInv
              simp only [hr]
              split_ifs with hgt
              · exact ih (k + 1) _ _ _ hrest hsets' hnsSub (hnsScore.trans hnsEq)
              · exact ih (k + 1) _ max_score best_set hrest hsets' hbs hms

theorem le_foldl_max_init (t : List Int) : ∀ a : Int, a ≤ t.foldl max a := by
  induction t with
  | nil => intro a; exact le_refl a
  | cons b t ih => intro a; exact le_trans (le_max_left a b) (ih (max a b))

theorem le_foldl_max_of_mem (t : List Int) :
    ∀ (a x : Int), x ∈ t → x ≤ t.foldl max a := by
  induction t with
  | nil => intro a x hx; exact absurd hx (List.not_mem_nil x)
  | cons b t ih =>
      intro a x hx
      rcases List.mem_cons.mp hx with rfl | hm
      · exact le_trans (le_max_right a x) (le_foldl_max_init t (max a x))
      · exact ih (max a b) x hm

/-- The maximum of the search objective over all subsequences of the
end-sorted alignment list (all sublists of `range n`). -/
def max_subseq_score (env : Env) (cyc : Option (String → Int)) (seq : List Char)
    (sa : List Mapping) : Int :=
  (((List.range sa.length).sublists).map (subseq_score env cyc seq sa)).foldl max 0

/-- C1 (amended): the best-set search always returns a subsequence of the
end-sorted alignment list (as a list of indexes into it), and the reported
`max_score` is exactly the search objective (`__get_score` folded along
the chain) of the returned subsequence — hence never more than the
maximum of the objective over all subsequences.  The maximality part of
the original claim is false: the frontier keeps at most one extension per
alignment, which can discard the unique optimum (see the
counterexample). -/
theorem best_set_search_returns_subsequence_score (env : Env)
    (cyc : Option (String → Int)) (seq : List Char) (sa : List Mapping) :
    List.Sublist (best_set_search env cyc seq sa).2 (List.range sa.length) ∧
    (best_set_search env cyc seq sa).1 =
      subseq_score env cyc seq sa (best_set_search env cyc seq sa).2 ∧
    (best_set_search env cyc seq sa).1 ≤ max_subseq_score env cyc seq sa := by
  have hsets : ∀ s ∈ [(⟨0, [], ((List.length seq : Nat) : Int)⟩ : ScoredAlignSet)],
      SetInv env cyc seq (extensive_penalty env.cfg seq.length)
        (local_penalty env.cfg seq.length) sa ((seq.length : Nat) : Int) 0 s := by
    intro s hs
    rw [List.mem_singleton.mp hs]
    exact ⟨List.nil_sublist _, rfl⟩
  have h := best_set_outer_spec env cyc seq (extensive_penalty env.cfg seq.length)
    (local_penalty env.cfg seq.length) sa ((seq.length : Nat) : Int) sa.enum 0
    [⟨0, [], ((seq.length : Nat) : Int)⟩] 0 [] (List.drop_zero _).symm hsets
    (List.nil_sublist _) rfl
  refine ⟨h.1, h.2, ?_⟩
  have h2 : (best_set_search env cyc seq sa).1 =
      subseq_score env cyc seq sa (best_set_search env cyc seq sa).2 := h.2
  rw [h2]
  exact le_foldl_max_of_mem _ 0 _
    (List.mem_map_of_mem _ (List.mem_sublists.mpr h.1))

/-- The four end-sorted alignments of the C1 counterexample: a 300-base
contig where the unique optimum keeps alignments 0, 2 and 3, but the
frontier only records the best single extension per alignment and so
never forms the chain `[0, 2]` needed to reach it. -/
def c1Aligns : List Mapping :=
  [⟨1001, 1100, 1, 100, 100, 100, 100, "R", "ctg"⟩,
   ⟨1, 150, 1, 150, 150, 150, 100, "R", "ctg"⟩,
   ⟨1236, 1335, 151, 250, 100, 100, 100, "R", "ctg"⟩,
   ⟨1210, 1390, 120, 300, 181, 181, 100, "R", "ctg"⟩]

set_option maxRecDepth 10000 in
/-- C1 counterexample: on `c1Aligns` the search returns score 278 with set
`[0, 3]`, yet the subsequence `[0, 2, 3]` scores 280 and is the unique
maximizer of the objective — the dominance pruning discarded the unique
optimum, refuting the maximality part of the claim. -/
theorem best_set_search_discards_unique_optimum :
    best_set_search test_env none (List.replicate 300 (Char.ofNat 65)) c1Aligns =
      (278, [0, 3]) ∧
    List.Sublist [0, 2, 3] (List.range c1Aligns.length) ∧
    subseq_score test_env none (List.replicate 300 (Char.ofNat 65)) c1Aligns
      [0, 2, 3] = 280 ∧
    (∀ ids ∈ (List.range c1Aligns.length).sublists, ids ≠ [0, 2, 3] →
      subseq_score test_env none (List.replicate 300 (Char.ofNat 65)) c1Aligns
        ids < 280) := by
  decide

end Quast
